import Mathlib

/-!
Prometheus example exporter: collector, data source and signal handler.

A shallow embedding of `main.go`.  Mutable Go state is threaded explicitly:
every method returns the updated collector together with what it logged and
what it sent on its channel.  The pieces of the Go standard library and of the
Prometheus client library that the program calls (`fmt.Sprintf("%f", _)`,
`fmt.Errorf`, `prometheus.NewDesc`, `prometheus.MustNewConstMetric`,
`log.Println`, `signal.Notify`) are modelled by the small functions below.
-/

namespace Exporter

/-! ## Go values -/

/-- Go `error` value, observed only through its `Error()` method. A nil error is
`none : Option GoError`. -/
structure GoError where
  msg : String
deriving DecidableEq

/-- The `Error()` method of a Go error. -/
def GoError.Error (e : GoError) : String := e.msg

/-- Result of `fmt.Errorf` with a format string without verbs. -/
def Errorf (format : String) : GoError := ⟨format⟩

/-- IEEE-754 binary64 value. A finite value is `(-1)^neg * mant * 2^exp`; the
sign is kept apart from the magnitude so that negative zero is a value. -/
inductive Float64 where
  | finite (neg : Bool) (mant : Nat) (exp : Int)
  | inf (neg : Bool)
  | nan
deriving DecidableEq

/-- Go conversion `float64(i)` of an `int`; exact for every `|i| ≤ 2^53`, which
covers the loop counter and the literal 42 of the program. -/
def float64 (i : Int) : Float64 := .finite (decide (i < 0)) i.natAbs 0

/-- The magnitude of a finite value times `10^6`, rounded to the nearest
integer, ties to even: the digits `%f` prints at its default precision 6. -/
def roundMicro (mant : Nat) (exp : Int) : Nat :=
  match exp with
  | .ofNat k => mant * 2 ^ k * 10 ^ 6
  | .negSucc k =>
    let num := mant * 10 ^ 6
    let den := 2 ^ (k + 1)
    let q := num / den
    let r := num % den
    if 2 * r > den ∨ (2 * r = den ∧ q % 2 = 1) then q + 1 else q

/-- Exactly six decimal digits of a number below `10^6`, zero padded. -/
def sixDigits (n : Nat) : String :=
  String.mk ([100000, 10000, 1000, 100, 10, 1].map fun p => Nat.digitChar (n / p % 10))

/-- Go `fmt.Sprintf("%f", x)` for a float64 `x`: sign, integer part, a dot and
six decimals; the special values print as `+Inf`, `-Inf`, `NaN`. -/
def Sprintf_f (x : Float64) : String :=
  match x with
  | .nan => "NaN"
  | .inf false => "+Inf"
  | .inf true => "-Inf"
  | .finite neg mant exp =>
    let u := roundMicro mant exp
    (if neg then "-" else "") ++ Nat.repr (u / 10 ^ 6) ++ "." ++ sixDigits (u % 10 ^ 6)

/-! ## Prometheus client library -/

/-- Metric names match `[a-zA-Z_:][a-zA-Z0-9_:]*` (`model.IsValidMetricName`). -/
def isValidMetricName (s : String) : Bool :=
  match s.data with
  | [] => false
  | c :: cs =>
    (c.isAlpha || c == '_' || c == ':') && cs.all fun d => d.isAlphanum || d == '_' || d == ':'

/-- Label names match `[a-zA-Z_][a-zA-Z0-9_]*` and do not start with the
reserved `__` (`checkLabelName`). -/
def checkLabelName (s : String) : Bool :=
  match s.data with
  | [] => false
  | c :: cs =>
    (c.isAlpha || c == '_') && (cs.all fun d => d.isAlphanum || d == '_')
      && !(c == '_' && cs.head? == some '_')

/-- A `prometheus.Desc`: name, help, variable label names, and the error that
`NewDesc` records instead of returning. -/
structure Desc where
  fqName : String
  help : String
  variableLabels : List String
  err : Option String
deriving DecidableEq

/-- Model of `prometheus.NewDesc` with nil const labels, as both calls of the
program have: the name and the label names are validated and a failure is kept
in the descriptor. -/
def NewDesc (fqName help : String) (variableLabels : List String) : Desc :=
  if !isValidMetricName fqName then
    ⟨fqName, help, variableLabels, some "not a valid metric name"⟩
  else if !variableLabels.all checkLabelName then
    ⟨fqName, help, variableLabels, some "not a valid label name"⟩
  else if variableLabels.eraseDups.length != variableLabels.length then
    ⟨fqName, help, variableLabels, some "duplicate label names"⟩
  else
    ⟨fqName, help, variableLabels, none⟩

/-- The `prometheus.ValueType` enumeration. -/
inductive ValueType where
  | CounterValue
  | GaugeValue
  | UntypedValue
deriving DecidableEq

/-- A constant metric (one sample): its descriptor, value type, value and the
label values in the position order of the descriptor. -/
structure Metric where
  desc : Desc
  valueType : ValueType
  value : Float64
  labelValues : List String
deriving DecidableEq

/-- Model of `prometheus.MustNewConstMetric`: `Except.error` is the panic that
the function raises when `NewConstMetric` fails, that is when the descriptor
carries an error or the number of label values differs from the number of
variable labels. (Go strings that are not UTF-8 are outside `String`.) -/
def MustNewConstMetric (desc : Desc) (valueType : ValueType) (value : Float64)
    (labelValues : List String) : Except String Metric :=
  match desc.err with
  | some e => .error e
  | none =>
    if labelValues.length ≠ desc.variableLabels.length then
      .error "inconsistent label cardinality"
    else
      .ok ⟨desc, valueType, value, labelValues⟩

/-! ## The program -/

/-- The `Config` struct. -/
structure Config where
  Port : Int
deriving DecidableEq

/-- The `Collector` struct. -/
structure Collector where
  last_error : Option GoError
  config : Config
  example_metric_with_label : Desc
  example_metric_without_label : Desc
deriving DecidableEq

/-- What a data source hands to `Collect`: the two results `list, err` of a call
such as `getMetrics()`. -/
structure Outcome where
  list : List Float64
  err : Option GoError
deriving DecidableEq

/-- The loop of `getMetrics` with its bound as a parameter:
`for i := 0; i < n; i++ { list = append(list, float64(i)) }`. -/
def getMetricsLoop (n : Nat) : List Float64 :=
  (List.range n).foldl (fun list i => list ++ [float64 (Int.ofNat i)]) []

/-- The end of `getMetrics`, after the loop: the guard on an empty list. -/
def getMetricsGuard (list : List Float64) : Outcome :=
  if list.length = 0 then
    ⟨[], some (Errorf "error in getMetrics()")⟩
  else
    ⟨list, none⟩

/-- The data source `getMetrics()`. -/
def getMetrics : Outcome := getMetricsGuard (getMetricsLoop 3)

/-- The constructor `newCollector(config)`. -/
def newCollector (config : Config) : Collector :=
  { last_error := none
    config := config
    example_metric_with_label :=
      NewDesc "example_metric_with_label" "Description" ["label_1", "label_2"]
    example_metric_without_label :=
      NewDesc "example_metric_without_label" "Description" [] }

/-- The method `Describe`: the descriptors sent on `ch`, in order, and the
collector afterwards. -/
def Describe (collector : Collector) : Collector × List Desc :=
  (collector, [collector.example_metric_with_label, collector.example_metric_without_label])

/-- Everything one call of `Collect` does: the collector afterwards, the lines
handed to `log.Println`, the metrics sent on `ch`, and the panic value when a
`MustNewConstMetric` panicked (the sends before it have happened). -/
structure CollectResult where
  collector : Collector
  logged : List String
  ch : List Metric
  panicked : Option String
deriving DecidableEq

/-- The text `log.Println("Failed to get Metrics:", err)` writes after the
logger's own timestamp and file name. -/
def failedLine (err : GoError) : String := "Failed to get Metrics: " ++ err.Error

/-- The condition of line 86:
`collector.last_error == nil || collector.last_error.Error() != err.Error()`. -/
def isNewError (last_error : Option GoError) (err : GoError) : Bool :=
  match last_error with
  | none => true
  | some last => last.Error != err.Error

/-- The `for` loop of `Collect` over the readings still to visit, with the
metrics sent so far. -/
def collectLoop (desc : Desc) : List Float64 → List Metric → List Metric × Option String
  | [], ch => (ch, none)
  | x :: rest, ch =>
    let label_1 := Sprintf_f x
    let label_2 := "second label"
    match MustNewConstMetric desc .GaugeValue (float64 42) [label_1, label_2] with
    | .error p => (ch, some p)
    | .ok m => collectLoop desc rest (ch ++ [m])

/-- The method `Collect`, with the result of its call to the data source as an
argument. -/
def CollectWith (src : Outcome) (collector : Collector) : CollectResult :=
  match src.err with
  | some err =>
    if isNewError collector.last_error err then
      ⟨{ collector with last_error := some err }, [failedLine err], [], none⟩
    else
      ⟨collector, [], [], none⟩
  | none =>
    let collector := { collector with last_error := none }
    match MustNewConstMetric collector.example_metric_without_label .GaugeValue
        (float64 42) [] with
    | .error p => ⟨collector, [], [], some p⟩
    | .ok m =>
      let r := collectLoop collector.example_metric_with_label src.list [m]
      ⟨collector, [], r.1, r.2⟩

/-- The method `Collect` of the program: the data source is `getMetrics`. -/
def Collect (collector : Collector) : CollectResult := CollectWith getMetrics collector

/-- The results of successive `Collect` calls, one per data-source outcome. -/
def collectTrace : Collector → List Outcome → List CollectResult
  | _, [] => []
  | c, o :: os => CollectWith o c :: collectTrace (CollectWith o c).collector os

/-- The collector after successive `Collect` calls. -/
def collectAll (c : Collector) (os : List Outcome) : Collector :=
  os.foldl (fun c o => (CollectWith o c).collector) c

/-- The collector after `n` scrapes served by the program's own `Collect`. -/
def scrapes (config : Config) : Nat → Collector
  | 0 => newCollector config
  | n + 1 => (Collect (scrapes config n)).collector

/-! ## Values the specification names -/

/-- The descriptor `example_metric_with_label` with its two label names. -/
def descWithLabel : Desc :=
  ⟨"example_metric_with_label", "Description", ["label_1", "label_2"], none⟩

/-- The descriptor `example_metric_without_label`, without label names. -/
def descWithoutLabel : Desc :=
  ⟨"example_metric_without_label", "Description", [], none⟩

/-- All lines logged by a sequence of `Collect` calls, in order. -/
def allLogged (rs : List CollectResult) : List String :=
  (rs.map fun r => r.logged).flatten

/-- A failing data-source outcome: whatever list comes with a non-nil error. -/
def failing (f : List Float64 × GoError) : Outcome := ⟨f.1, some f.2⟩

/-- Number of positions of `a :: l` at which the message differs from the one
before. -/
def changes : GoError → List GoError → Nat
  | _, [] => 0
  | a, b :: t => (if a.Error == b.Error then 0 else 1) + changes b t

/-! ## The signal handler -/

/-- The signals passed to `signal.Notify`. The operating system never hands
SIGKILL to a process, so a stream that holds it is one the handler cannot see;
the model admits it all the same. -/
inductive Signal where
  | SIGTERM
  | SIGKILL
  | SIGQUIT
deriving DecidableEq

/-- The `String()` method of a `syscall.Signal`. -/
def Signal.String : Signal → String
  | .SIGTERM => "terminated"
  | .SIGKILL => "killed"
  | .SIGQUIT => "quit"

/-- Where the goroutine running `signalHandler` stands: blocked on `<-c`
(line 125), about to log the signal (126), about to call `server.Shutdown`
(127), about to log its error (129), or returned. -/
inductive HandlerPc where
  | receive
  | println (s : Signal)
  | shutdown
  | printErr (err : GoError)
  | returned
deriving DecidableEq

/-- State of the signal handling: the buffered channel `c` (capacity 1), the
handler goroutine, the lines it logged and how often `server.Shutdown` has
been invoked. -/
structure HandlerState where
  c : List Signal
  pc : HandlerPc
  logged : List String
  shutdownCalls : Nat
deriving DecidableEq

/-- What can happen next: the runtime relays a signal to `c`, or the handler
goroutine executes its next statement. -/
inductive Event where
  | signal (s : Signal)
  | handler
deriving DecidableEq

/-- The state when `signalHandler` has executed `signal.Notify` (line 122). -/
def handlerStart : HandlerState := ⟨[], .receive, [], 0⟩

/-- One event. The relay of `signal.Notify` never blocks: a signal that finds
`c` full is dropped. `shutdownErr` is what `server.Shutdown` returns. -/
def handlerStep (shutdownErr : Option GoError) (st : HandlerState) : Event → HandlerState
  | .signal s => if st.c.length < 1 then { st with c := st.c ++ [s] } else st
  | .handler =>
    match st.pc with
    | .receive =>
      match st.c with
      | [] => st
      | s :: rest => { st with c := rest, pc := .println s }
    | .println s =>
      { st with
        logged := st.logged ++ ["Shutting down exporter, received signal: " ++ s.String]
        pc := .shutdown }
    | .shutdown =>
      { st with
        shutdownCalls := st.shutdownCalls + 1
        pc := match shutdownErr with
          | some err => .printErr err
          | none => .returned }
    | .printErr err =>
      { st with
        logged := st.logged ++ ["Failed to shutdown server: " ++ err.Error]
        pc := .returned }
    | .returned => st

/-- The state after a sequence of events, from `st`. -/
def handlerRun (shutdownErr : Option GoError) (st : HandlerState) (events : List Event) :
    HandlerState :=
  events.foldl (handlerStep shutdownErr) st

/-- The signals of a sequence of events, in order of arrival. -/
def signalsOf : List Event → List Signal
  | [] => []
  | .signal s :: rest => s :: signalsOf rest
  | .handler :: rest => signalsOf rest

/-- What the handler has established about the signals `ds` relayed so far. -/
def HandlerInv (ds : List Signal) (st : HandlerState) : Prop :=
  match st.pc with
  | .receive => st.c = ds.take 1 ∧ st.shutdownCalls = 0 ∧ st.logged = []
  | .println s => ds.head? = some s ∧ st.shutdownCalls = 0 ∧ st.logged = []
  | .shutdown => ∃ s, ds.head? = some s ∧ st.shutdownCalls = 0 ∧
      st.logged = ["Shutting down exporter, received signal: " ++ s.String]
  | .printErr _ => ∃ s, ds.head? = some s ∧ st.shutdownCalls = 1 ∧
      st.logged = ["Shutting down exporter, received signal: " ++ s.String]
  | .returned => ∃ s, ds.head? = some s ∧ st.shutdownCalls = 1 ∧
      st.logged.head? = some ("Shutting down exporter, received signal: " ++ s.String)

/-! ## Two scrapes at once -/

/-- Where a failing `Collect` call stands: at the condition of line 86, at the
`log.Println` of line 87, at the assignment of line 88, or past the `if`. -/
inductive ScrapePc where
  | check
  | log
  | store
  | done
deriving DecidableEq

/-- Two failing `Collect` calls on one collector: the collector and the log
they share, and where each call stands. -/
structure Race where
  collector : Collector
  logged : List String
  pcA : ScrapePc
  pcB : ScrapePc
deriving DecidableEq

/-- The next statement of a failing `Collect` call whose data source returned
`err`, on the shared collector and log. -/
def scrapeStep (err : GoError) (pc : ScrapePc) (collector : Collector) (logged : List String) :
    ScrapePc × Collector × List String :=
  match pc with
  | .check => (if isNewError collector.last_error err then .log else .done, collector, logged)
  | .log => (.store, collector, logged ++ [failedLine err])
  | .store => (.done, { collector with last_error := some err }, logged)
  | .done => (.done, collector, logged)

/-- One step of the call chosen by the scheduler (`false` the first call,
`true` the second). -/
def raceStep (errA errB : GoError) (st : Race) (second : Bool) : Race :=
  if second then
    let r := scrapeStep errB st.pcB st.collector st.logged
    { st with pcB := r.1, collector := r.2.1, logged := r.2.2 }
  else
    let r := scrapeStep errA st.pcA st.collector st.logged
    { st with pcA := r.1, collector := r.2.1, logged := r.2.2 }

/-- Two failing calls started on `collector`, run under a schedule. -/
def race (errA errB : GoError) (collector : Collector) (schedule : List Bool) : Race :=
  schedule.foldl (raceStep errA errB) ⟨collector, [], .check, .check⟩

/-! ## Lemmas on the collector -/

theorem newDesc_with_label :
    NewDesc "example_metric_with_label" "Description" ["label_1", "label_2"] = descWithLabel := by
  decide

theorem newDesc_without_label :
    NewDesc "example_metric_without_label" "Description" [] = descWithoutLabel := by
  decide

theorem newCollector_eq (config : Config) :
    newCollector config = ⟨none, config, descWithLabel, descWithoutLabel⟩ := by
  unfold newCollector
  rw [newDesc_with_label, newDesc_without_label]

theorem collectWith_failure (list : List Float64) (err : GoError) (c : Collector) :
    CollectWith ⟨list, some err⟩ c =
      if isNewError c.last_error err then
        ⟨{ c with last_error := some err }, [failedLine err], [], none⟩
      else ⟨c, [], [], none⟩ :=
  rfl

theorem collectLoop_ok (desc : Desc) (h1 : desc.err = none)
    (h2 : desc.variableLabels.length = 2) (xs : List Float64) (ch : List Metric) :
    collectLoop desc xs ch =
      (ch ++ xs.map (fun x =>
        (⟨desc, .GaugeValue, float64 42, [Sprintf_f x, "second label"]⟩ : Metric)), none) := by
  induction xs generalizing ch with
  | nil => simp [collectLoop]
  | cons x rest ih => simp [collectLoop, MustNewConstMetric, h1, h2, ih]

theorem collectWith_success (xs : List Float64) (le : Option GoError) (config : Config) :
    CollectWith ⟨xs, none⟩ ⟨le, config, descWithLabel, descWithoutLabel⟩ =
      ⟨⟨none, config, descWithLabel, descWithoutLabel⟩, [],
        (⟨descWithoutLabel, .GaugeValue, float64 42, []⟩ : Metric) ::
          xs.map (fun x =>
            (⟨descWithLabel, .GaugeValue, float64 42, [Sprintf_f x, "second label"]⟩ : Metric)),
        none⟩ := by
  have h := collectLoop_ok descWithLabel rfl rfl xs
    [(⟨descWithoutLabel, .GaugeValue, float64 42, []⟩ : Metric)]
  simp [CollectWith, MustNewConstMetric, descWithoutLabel, descWithLabel] at h ⊢
  simp [h]

theorem collectWith_shape (src : Outcome) (le : Option GoError) (config : Config) :
    ∃ le2, (CollectWith src ⟨le, config, descWithLabel, descWithoutLabel⟩).collector =
      ⟨le2, config, descWithLabel, descWithoutLabel⟩ := by
  obtain ⟨list, err⟩ := src
  cases err with
  | none => exact ⟨none, by rw [collectWith_success]⟩
  | some e =>
    rw [collectWith_failure]
    split
    · exact ⟨some e, rfl⟩
    · exact ⟨le, rfl⟩

theorem collectAll_shape (os : List Outcome) (le : Option GoError) (config : Config) :
    ∃ le2, collectAll ⟨le, config, descWithLabel, descWithoutLabel⟩ os =
      ⟨le2, config, descWithLabel, descWithoutLabel⟩ := by
  induction os generalizing le with
  | nil => exact ⟨le, rfl⟩
  | cons o rest ih =>
    obtain ⟨le1, h1⟩ := collectWith_shape o le config
    obtain ⟨le2, h2⟩ := ih le1
    exact ⟨le2, by simpa [collectAll, h1] using h2⟩

theorem getMetrics_eq :
    getMetrics = ⟨[.finite false 0 0, .finite false 1 0, .finite false 2 0], none⟩ := by
  decide

theorem sprintf_zero : Sprintf_f (.finite false 0 0) = "0.000000" := by decide

theorem sprintf_one : Sprintf_f (.finite false 1 0) = "1.000000" := by decide

theorem sprintf_two : Sprintf_f (.finite false 2 0) = "2.000000" := by decide

theorem scrapes_eq (config : Config) (n : Nat) :
    scrapes config n = ⟨none, config, descWithLabel, descWithoutLabel⟩ := by
  induction n with
  | zero => exact newCollector_eq config
  | succ k ih => simp [scrapes, Collect, ih, getMetrics_eq, collectWith_success]

theorem splitByLoop_length (l : List GoError) (a : GoError) (g : List GoError)
    (gs : List (List GoError)) :
    (List.splitBy.loop (fun x y => x.Error == y.Error) l a g gs).length =
      gs.length + 1 + changes a l := by
  induction l generalizing a g gs with
  | nil => simp [List.splitBy.loop, changes]
  | cons b t ih =>
    by_cases h : a.Error = b.Error
    · simp [List.splitBy.loop, changes, h, ih]
    · have hb : (a.Error == b.Error) = false := by simp [h]
      simp [List.splitBy.loop, changes, hb, ih]
      omega

theorem allLogged_cons (r : CollectResult) (rs : List CollectResult) :
    allLogged (r :: rs) = r.logged ++ allLogged rs := by
  simp [allLogged]

theorem logged_after_error (fs : List (List Float64 × GoError)) (c : Collector) (a : GoError)
    (h : c.last_error = some a) :
    (allLogged (collectTrace c (fs.map failing))).length = changes a (fs.map fun f => f.2) := by
  induction fs generalizing c a with
  | nil => simp [collectTrace, allLogged, changes]
  | cons f rest ih =>
    simp only [List.map_cons, collectTrace, allLogged_cons, failing, collectWith_failure,
      List.length_append, changes]
    by_cases hn : a.Error = f.2.Error
    · have ha : a = f.2 := by
        cases a; cases hf : f.2; simp_all [GoError.Error]
      have hi := ih c a h
      simp only [failing] at hi
      simp [h, isNewError, hn, hi, ha]
    · have hi := ih { c with last_error := some f.2 } f.2 rfl
      simp only [failing] at hi
      simp [h, isNewError, hn, hi]

/-! ## The collector claims -/

/-- C1: starting from a fresh collector and feeding any finite sequence of failing
data-source outcomes to successive `Collect` calls, the number of lines logged
(all of them "Failed to get Metrics" lines) equals the number of maximal runs of
consecutive errors with the same message; two failures with one message
followed by a failure with another message log at the first and at the third
call only. -/
theorem collect_log_lines_eq_runs (config : Config) (fs : List (List Float64 × GoError)) :
    (allLogged (collectTrace (newCollector config) (fs.map failing))).length =
      ((fs.map fun f => f.2).splitBy fun a b => a.Error == b.Error).length
    ∧ (∀ line ∈ allLogged (collectTrace (newCollector config) (fs.map failing)),
        ∃ e, line = "Failed to get Metrics: " ++ e)
    ∧ ∀ (e e2 : GoError) (l1 l2 l3 : List Float64), e.Error ≠ e2.Error →
        (collectTrace (newCollector config)
          [⟨l1, some e⟩, ⟨l2, some e⟩, ⟨l3, some e2⟩]).map (fun r => r.logged) =
          [[failedLine e], [], [failedLine e2]] := by
  refine ⟨?_, ?_, ?_⟩
  · cases fs with
    | nil => simp [collectTrace, allLogged]
    | cons f rest =>
      have hi := logged_after_error rest { newCollector config with last_error := some f.2 }
        f.2 rfl
      simp only [List.map_cons, collectTrace, allLogged_cons, failing, collectWith_failure,
        List.length_append, List.splitBy, splitByLoop_length]
      simp only [failing] at hi
      simp [newCollector_eq, isNewError, hi] at hi ⊢
      simp [hi]
  · generalize newCollector config = c
    induction fs generalizing c with
    | nil => simp [collectTrace, allLogged]
    | cons f rest ih =>
      intro line hl
      simp only [List.map_cons, collectTrace, allLogged_cons, List.mem_append] at hl
      rcases hl with hl | hl
      · simp only [failing, collectWith_failure] at hl
        split at hl
        · exact ⟨f.2.Error, by simpa [failedLine] using hl⟩
        · simp at hl
      · exact ih _ line hl
  · intro e e2 l1 l2 l3 h
    have h2 : ¬ e.msg = e2.msg := h
    simp [collectTrace, collectWith_failure, newCollector_eq, isNewError, GoError.Error, h2]

/-- C1, at a concrete input: the error "a" twice, then the error "b". -/
theorem collect_log_lines_eq_runs_witness :
    (collectTrace (newCollector ⟨9100⟩)
      [⟨[], some ⟨"a"⟩⟩, ⟨[], some ⟨"a"⟩⟩, ⟨[], some ⟨"b"⟩⟩]).map (fun r => r.logged) =
      [[failedLine ⟨"a"⟩], [], [failedLine ⟨"b"⟩]] :=
  (collect_log_lines_eq_runs ⟨9100⟩ []).2.2 ⟨"a"⟩ ⟨"b"⟩ [] [] [] (by decide)

/-- C2: for every collector state and every failing data-source outcome, `Collect`
sends no metric on its channel and returns normally: it does not panic, and the
error shows only in the log and in `last_error`. -/
theorem collect_failure_emits_nothing (collector : Collector) (list : List Float64)
    (err : GoError) :
    (CollectWith ⟨list, some err⟩ collector).ch = []
    ∧ (CollectWith ⟨list, some err⟩ collector).panicked = none := by
  rw [collectWith_failure]
  split <;> exact ⟨rfl, rfl⟩

/-- C3: a `Collect` call whose data source succeeds sets `last_error` to nil in
every collector state; hence in fail(e), success, fail(e) the third call logs e
again, from any state, while in fail(e), fail(e) the second call logs nothing;
on a fresh collector that is two log lines against one. -/
theorem collect_success_clears_last_error (e : GoError) (c : Collector)
    (l1 xs l3 : List Float64) (config : Config) :
    (CollectWith ⟨xs, none⟩ c).collector.last_error = none
    ∧ (collectTrace c [⟨l1, some e⟩, ⟨xs, none⟩, ⟨l3, some e⟩]).map (fun r => r.logged) =
        [if isNewError c.last_error e then [failedLine e] else [], [], [failedLine e]]
    ∧ (collectTrace c [⟨l1, some e⟩, ⟨l3, some e⟩]).map (fun r => r.logged) =
        [if isNewError c.last_error e then [failedLine e] else [], []]
    ∧ allLogged (collectTrace (newCollector config) [⟨l1, some e⟩, ⟨xs, none⟩, ⟨l3, some e⟩]) =
        [failedLine e, failedLine e]
    ∧ allLogged (collectTrace (newCollector config) [⟨l1, some e⟩, ⟨l3, some e⟩]) =
        [failedLine e] := by
  have hs : ∀ c : Collector, (CollectWith ⟨xs, none⟩ c).collector.last_error = none
      ∧ (CollectWith ⟨xs, none⟩ c).logged = [] := by
    intro c
    simp only [CollectWith]
    split <;> exact ⟨rfl, rfl⟩
  have hf : ∀ c : Collector, c.last_error = none →
      (CollectWith ⟨l3, some e⟩ c).logged = [failedLine e] := by
    intro c hc
    simp [collectWith_failure, hc, isNewError]
  refine ⟨(hs c).1, ?_, ?_, ?_, ?_⟩
  · simp only [collectTrace, List.map_cons, List.map_nil, (hs _).2, hf _ (hs _).1]
    rw [collectWith_failure]
    split <;> rfl
  · simp only [collectTrace, List.map_cons, List.map_nil, collectWith_failure]
    cases hle : c.last_error with
    | none => simp [isNewError]
    | some last =>
      by_cases h : last.msg = e.msg <;> simp [isNewError, GoError.Error, h, hle]
  · simp only [collectTrace, allLogged, List.map_cons, List.map_nil, (hs _).2, hf _ (hs _).1]
    simp [collectWith_failure, newCollector_eq, isNewError]
  · simp [collectTrace, allLogged, collectWith_failure, newCollector_eq, isNewError,
      GoError.Error]

/-- C4: after any earlier scrapes of a collector built by `newCollector`, a `Collect`
call whose data source succeeds with readings `xs` sends exactly `1 + len(xs)`
metrics: first `example_metric_without_label` with value 42 and no label value,
then for each reading in order `example_metric_with_label` with value 42,
`label_1` the `%f` rendering of the reading and `label_2 = "second label"`. For
`getMetrics`, whose readings are 0, 1, 2, the `label_1` values are "0.000000",
"1.000000", "2.000000", pairwise distinct. -/
theorem collect_success_samples (config : Config) (os : List Outcome) (xs : List Float64) :
    (CollectWith ⟨xs, none⟩ (collectAll (newCollector config) os)).ch =
      (⟨descWithoutLabel, .GaugeValue, float64 42, []⟩ : Metric) ::
        xs.map (fun x =>
          (⟨descWithLabel, .GaugeValue, float64 42, [Sprintf_f x, "second label"]⟩ : Metric))
    ∧ (CollectWith ⟨xs, none⟩ (collectAll (newCollector config) os)).ch.length = 1 + xs.length
    ∧ (CollectWith ⟨xs, none⟩ (collectAll (newCollector config) os)).panicked = none
    ∧ getMetrics = ⟨[float64 0, float64 1, float64 2], none⟩
    ∧ (Collect (collectAll (newCollector config) os)).ch.map (fun m => m.labelValues) =
        [[], ["0.000000", "second label"], ["1.000000", "second label"],
          ["2.000000", "second label"]]
    ∧ ["0.000000", "1.000000", "2.000000"].Nodup := by
  obtain ⟨le, h⟩ := collectAll_shape os none config
  rw [← newCollector_eq] at h
  rw [Collect, h, collectWith_success, getMetrics_eq, collectWith_success]
  refine ⟨rfl, by simp; omega, rfl, by decide, ?_, by decide⟩
  simp [sprintf_zero, sprintf_one, sprintf_two]

/-- C5: for every collector built by `newCollector`, after any earlier scrapes and
for every data-source outcome, `Collect` does not panic and each metric it sends
carries as many label values as its descriptor has label names: none for
`example_metric_without_label`, two for `example_metric_with_label`; so
`MustNewConstMetric` succeeds on it. -/
theorem collect_label_counts (config : Config) (os : List Outcome) (src : Outcome) :
    (CollectWith src (collectAll (newCollector config) os)).panicked = none
    ∧ ∀ m ∈ (CollectWith src (collectAll (newCollector config) os)).ch,
        m.labelValues.length = m.desc.variableLabels.length
        ∧ MustNewConstMetric m.desc m.valueType m.value m.labelValues = .ok m
        ∧ ((m.desc = (newCollector config).example_metric_without_label
              ∧ m.desc.fqName = "example_metric_without_label" ∧ m.labelValues.length = 0)
            ∨ (m.desc = (newCollector config).example_metric_with_label
              ∧ m.desc.fqName = "example_metric_with_label" ∧ m.labelValues.length = 2)) := by
  obtain ⟨le, h⟩ := collectAll_shape os none config
  rw [← newCollector_eq] at h
  rw [h, newCollector_eq]
  obtain ⟨list, err⟩ := src
  cases err with
  | some e =>
    rw [collectWith_failure]
    split <;> simp
  | none =>
    rw [collectWith_success]
    refine ⟨rfl, ?_⟩
    intro m hm
    rcases List.mem_cons.1 hm with rfl | hm
    · simp [MustNewConstMetric, descWithoutLabel]
    · obtain ⟨x, -, rfl⟩ := List.mem_map.1 hm
      simp [MustNewConstMetric, descWithLabel]

/-- C5, at the second metric of a scrape served by `getMetrics`. -/
theorem collect_label_counts_witness :
    (⟨descWithLabel, .GaugeValue, float64 42, ["0.000000", "second label"]⟩ : Metric) ∈
      (CollectWith getMetrics (collectAll (newCollector ⟨9100⟩) [])).ch
    ∧ MustNewConstMetric descWithLabel .GaugeValue (float64 42) ["0.000000", "second label"] =
        .ok ⟨descWithLabel, .GaugeValue, float64 42, ["0.000000", "second label"]⟩ :=
  ⟨by decide,
    ((collect_label_counts ⟨9100⟩ [] getMetrics).2
      ⟨descWithLabel, .GaugeValue, float64 42, ["0.000000", "second label"]⟩
      (by decide)).2.1⟩

/-- C7: in every state reachable from `newCollector` by `Collect` calls, `Describe`
sends the same two descriptors, `example_metric_with_label` with label names
`label_1`, `label_2` and `example_metric_without_label` with none, and leaves the
collector as it was; every metric `Collect` sends, for any data-source outcome,
refers to one of the two. -/
theorem describe_stable (config : Config) (os : List Outcome) :
    Describe (collectAll (newCollector config) os) =
      (collectAll (newCollector config) os,
        [⟨"example_metric_with_label", "Description", ["label_1", "label_2"], none⟩,
          ⟨"example_metric_without_label", "Description", [], none⟩])
    ∧ ∀ (src : Outcome), ∀ m ∈ (CollectWith src (collectAll (newCollector config) os)).ch,
        m.desc ∈ (Describe (collectAll (newCollector config) os)).2 := by
  obtain ⟨le, h⟩ := collectAll_shape os none config
  rw [← newCollector_eq] at h
  rw [h]
  refine ⟨rfl, ?_⟩
  rintro ⟨list, err⟩ m hm
  cases err with
  | some e =>
    rw [collectWith_failure] at hm
    split at hm <;> simp at hm
  | none =>
    rw [collectWith_success] at hm
    rcases List.mem_cons.1 hm with rfl | hm
    · simp [Describe]
    · obtain ⟨x, -, rfl⟩ := List.mem_map.1 hm
      simp [Describe]

/-- C7, at the first metric of a scrape served by `getMetrics` after a failure. -/
theorem describe_stable_witness :
    (⟨descWithoutLabel, .GaugeValue, float64 42, []⟩ : Metric) ∈
      (CollectWith getMetrics (collectAll (newCollector ⟨9100⟩) [⟨[], some ⟨"down"⟩⟩])).ch
    ∧ descWithoutLabel ∈
        (Describe (collectAll (newCollector ⟨9100⟩) [⟨[], some ⟨"down"⟩⟩])).2 :=
  ⟨by decide,
    (describe_stable ⟨9100⟩ [⟨[], some ⟨"down"⟩⟩]).2 getMetrics
      ⟨descWithoutLabel, .GaugeValue, float64 42, []⟩ (by decide)⟩

/-- C10: `getMetrics` returns the readings 0, 1, 2 with a nil error (its list has
length 3, so the guard does not fire), so after any number of scrapes
`last_error` is nil, and every `Collect` call of the program logs nothing, does
not panic and sends exactly 4 metrics. -/
theorem collect_of_getMetrics (config : Config) (n : Nat) :
    getMetrics = ⟨[.finite false 0 0, .finite false 1 0, .finite false 2 0], none⟩
    ∧ (getMetricsLoop 3).length = 3
    ∧ (scrapes config n).last_error = none
    ∧ (Collect (scrapes config n)).logged = []
    ∧ (Collect (scrapes config n)).ch.length = 4
    ∧ (Collect (scrapes config n)).panicked = none := by
  refine ⟨getMetrics_eq, by decide, ?_, ?_, ?_, ?_⟩ <;>
    simp [Collect, scrapes_eq, getMetrics_eq, collectWith_success]

/-- C6: when the data source, which ends with the guard of `getMetrics`, returns an
empty sequence of readings, it returns it with the error "error in getMetrics()",
and a `Collect` call on a fresh collector logs exactly one line and sends no
metric. -/
theorem collect_on_empty_readings (config : Config) (list : List Float64)
    (h : (getMetricsGuard list).list = []) :
    (getMetricsGuard list).err = some (Errorf "error in getMetrics()")
    ∧ (CollectWith (getMetricsGuard list) (newCollector config)).logged =
        ["Failed to get Metrics: error in getMetrics()"]
    ∧ (CollectWith (getMetricsGuard list) (newCollector config)).ch = []
    ∧ (CollectWith (getMetricsGuard list) (newCollector config)).panicked = none := by
  cases list with
  | nil =>
    have hg : getMetricsGuard [] = ⟨[], some (Errorf "error in getMetrics()")⟩ := rfl
    rw [hg, collectWith_failure, newCollector_eq]
    refine ⟨rfl, ?_, rfl, rfl⟩
    simp only [isNewError, if_true]
    decide
  | cons x t => simp [getMetricsGuard] at h

/-- C6, at the data source whose loop makes no reading. -/
theorem collect_on_empty_readings_witness :
    (getMetricsGuard (getMetricsLoop 0)).list = []
    ∧ (CollectWith (getMetricsGuard (getMetricsLoop 0)) (newCollector ⟨9100⟩)).logged =
        ["Failed to get Metrics: error in getMetrics()"]
    ∧ (CollectWith (getMetricsGuard (getMetricsLoop 0)) (newCollector ⟨9100⟩)).ch = [] :=
  ⟨by decide,
    (collect_on_empty_readings ⟨9100⟩ (getMetricsLoop 0) (by decide)).2.1,
    (collect_on_empty_readings ⟨9100⟩ (getMetricsLoop 0) (by decide)).2.2.1⟩

/-! ## The signal handler -/

theorem handlerInv_step (shutdownErr : Option GoError) (ds : List Signal) (st : HandlerState)
    (h : HandlerInv ds st) (ev : Event) :
    HandlerInv (ds ++ signalsOf [ev]) (handlerStep shutdownErr st ev) := by
  obtain ⟨c, pc, logged, calls⟩ := st
  cases ev with
  | signal s =>
    cases pc with
    | receive =>
      obtain ⟨hc, h0, hl⟩ := h
      cases ds with
      | nil => simp_all [HandlerInv, handlerStep, signalsOf]
      | cons d rest => simp_all [HandlerInv, handlerStep, signalsOf]
    | println s2 =>
      obtain ⟨hc, h0, hl⟩ := h
      by_cases hlen : c.length < 1 <;>
        simp_all [HandlerInv, handlerStep, signalsOf, List.head?_append]
    | shutdown =>
      obtain ⟨s2, hc, h0, hl⟩ := h
      by_cases hlen : c.length < 1 <;>
        simp_all [HandlerInv, handlerStep, signalsOf, List.head?_append]
    | printErr e =>
      obtain ⟨s2, hc, h0, hl⟩ := h
      by_cases hlen : c.length < 1 <;>
        simp_all [HandlerInv, handlerStep, signalsOf, List.head?_append]
    | returned =>
      obtain ⟨s2, hc, h0, hl⟩ := h
      by_cases hlen : c.length < 1 <;>
        simp_all [HandlerInv, handlerStep, signalsOf, List.head?_append]
  | handler =>
    cases pc with
    | receive =>
      obtain ⟨hc, h0, hl⟩ := h
      cases ds with
      | nil => simp_all [HandlerInv, handlerStep, signalsOf]
      | cons d rest => simp_all [HandlerInv, handlerStep, signalsOf]
    | println s2 =>
      obtain ⟨hc, h0, hl⟩ := h
      simp_all [HandlerInv, handlerStep, signalsOf]
    | shutdown =>
      obtain ⟨s2, hc, h0, hl⟩ := h
      cases shutdownErr <;> simp_all [HandlerInv, handlerStep, signalsOf]
    | printErr e =>
      obtain ⟨s2, hc, h0, hl⟩ := h
      simp_all [HandlerInv, handlerStep, signalsOf]
    | returned =>
      obtain ⟨s2, hc, h0, hl⟩ := h
      simp_all [HandlerInv, handlerStep, signalsOf]

theorem signalsOf_cons (ev : Event) (rest : List Event) :
    signalsOf (ev :: rest) = signalsOf [ev] ++ signalsOf rest := by
  cases ev <;> simp [signalsOf]

theorem handlerInv_run (shutdownErr : Option GoError) (events : List Event) (ds : List Signal)
    (st : HandlerState) (h : HandlerInv ds st) :
    HandlerInv (ds ++ signalsOf events) (handlerRun shutdownErr st events) := by
  induction events generalizing ds st with
  | nil => simpa [signalsOf, handlerRun] using h
  | cons ev rest ih =>
    have h1 := ih _ _ (handlerInv_step shutdownErr ds st h ev)
    rw [signalsOf_cons, ← List.append_assoc]
    simpa [handlerRun] using h1

theorem handlerInv_start : HandlerInv [] handlerStart := by
  simp [HandlerInv, handlerStart]

theorem handlerInv_calls_le (ds : List Signal) (st : HandlerState) (h : HandlerInv ds st) :
    st.shutdownCalls ≤ 1 := by
  obtain ⟨c, pc, logged, calls⟩ := st
  cases pc <;> simp_all [HandlerInv] <;> omega

theorem handlerStep_calls_mono (shutdownErr : Option GoError) (st : HandlerState) (ev : Event) :
    st.shutdownCalls ≤ (handlerStep shutdownErr st ev).shutdownCalls := by
  obtain ⟨c, pc, logged, calls⟩ := st
  cases ev with
  | signal s => by_cases hlen : c.length < 1 <;> simp [handlerStep, hlen]
  | handler =>
    cases pc with
    | receive => cases c <;> simp [handlerStep]
    | println s => simp [handlerStep]
    | shutdown => simp [handlerStep]
    | printErr e => simp [handlerStep]
    | returned => simp [handlerStep]

theorem handlerRun_calls_mono (shutdownErr : Option GoError) (events : List Event)
    (st : HandlerState) :
    st.shutdownCalls ≤ (handlerRun shutdownErr st events).shutdownCalls := by
  induction events generalizing st with
  | nil => simp [handlerRun]
  | cons ev rest ih =>
    have h1 := handlerStep_calls_mono shutdownErr st ev
    have h2 := ih (handlerStep shutdownErr st ev)
    simp only [handlerRun, List.foldl_cons] at h2 ⊢
    omega

theorem handlerRun_append (shutdownErr : Option GoError) (st : HandlerState)
    (xs ys : List Event) :
    handlerRun shutdownErr st (xs ++ ys) =
      handlerRun shutdownErr (handlerRun shutdownErr st xs) ys := by
  simp [handlerRun, List.foldl_append]

theorem handler_finish (shutdownErr : Option GoError) (ds : List Signal) (st : HandlerState)
    (h : HandlerInv ds st) :
    (handlerRun shutdownErr st [.handler, .handler, .handler, .handler]).shutdownCalls =
      (if ds = [] then 0 else 1)
    ∧ ∀ s, ds.head? = some s →
        (handlerRun shutdownErr st [.handler, .handler, .handler, .handler]).logged.head? =
          some ("Shutting down exporter, received signal: " ++ s.String) := by
  obtain ⟨c, pc, logged, calls⟩ := st
  cases pc with
  | receive =>
    obtain ⟨hc, h0, hl⟩ := h
    cases ds with
    | nil => simp_all [handlerRun, handlerStep]
    | cons d rest => cases shutdownErr <;> simp_all [handlerRun, handlerStep]
  | println s2 =>
    obtain ⟨hc, h0, hl⟩ := h
    cases ds with
    | nil => simp at hc
    | cons d rest => cases shutdownErr <;> simp_all [handlerRun, handlerStep]
  | shutdown =>
    obtain ⟨s2, hc, h0, hl⟩ := h
    cases ds with
    | nil => simp at hc
    | cons d rest => cases shutdownErr <;> simp_all [handlerRun, handlerStep]
  | printErr e =>
    obtain ⟨s2, hc, h0, hl⟩ := h
    cases ds with
    | nil => simp at hc
    | cons d rest => simp_all [handlerRun, handlerStep]
  | returned =>
    obtain ⟨s2, hc, h0, hl⟩ := h
    cases ds with
    | nil => simp at hc
    | cons d rest => simp_all [handlerRun, handlerStep]

/-- C8: for every stream of relayed signals and every scheduling of the handler
goroutine, `server.Shutdown` is invoked at most once; once the handler has had
its four steps it has been invoked exactly once if a signal arrived and never
otherwise, and the signal it logged is the first one; after the invocation no
later signal or step brings a second one. The handler has no statement that can
panic: a later signal is buffered in `c` or dropped. -/
theorem signalHandler_shutdown_once (shutdownErr : Option GoError)
    (events later : List Event) (s : Signal) :
    (handlerRun shutdownErr handlerStart events).shutdownCalls ≤ 1
    ∧ (handlerRun shutdownErr handlerStart
        (events ++ [.handler, .handler, .handler, .handler])).shutdownCalls =
          (if signalsOf events = [] then 0 else 1)
    ∧ ((signalsOf events).head? = some s →
        (handlerRun shutdownErr handlerStart
          (events ++ [.handler, .handler, .handler, .handler])).logged.head? =
            some ("Shutting down exporter, received signal: " ++ s.String))
    ∧ ((handlerRun shutdownErr handlerStart events).shutdownCalls = 1 →
        (handlerRun shutdownErr handlerStart (events ++ later)).shutdownCalls = 1) := by
  have hinv := handlerInv_run shutdownErr events [] handlerStart handlerInv_start
  have hfin := handler_finish shutdownErr _ _ hinv
  simp only [List.nil_append] at hfin
  refine ⟨handlerInv_calls_le _ _ hinv, ?_, ?_, ?_⟩
  · rw [handlerRun_append]
    exact hfin.1
  · rw [handlerRun_append]
    exact hfin.2 s
  · intro h1
    have h2 := handlerInv_calls_le _ _
      (handlerInv_run shutdownErr (events ++ later) [] handlerStart handlerInv_start)
    have h3 := handlerRun_calls_mono shutdownErr later (handlerRun shutdownErr handlerStart events)
    rw [← handlerRun_append] at h3
    omega

/-- C8, at a concrete stream: SIGTERM, then SIGQUIT while the server drains. -/
theorem signalHandler_shutdown_once_witness :
    (handlerRun none handlerStart
      ([.signal .SIGTERM, .handler, .handler, .handler, .signal .SIGQUIT] ++
        [.handler, .handler, .handler, .handler])).logged.head? =
      some ("Shutting down exporter, received signal: " ++ Signal.SIGTERM.String)
    ∧ (handlerRun none handlerStart
        ([.signal .SIGTERM, .handler, .handler, .handler] ++
          [.signal .SIGQUIT, .handler])).shutdownCalls = 1 :=
  ⟨(signalHandler_shutdown_once none
      [.signal .SIGTERM, .handler, .handler, .handler, .signal .SIGQUIT] [] .SIGTERM).2.2.1
      (by decide),
    (signalHandler_shutdown_once none [.signal .SIGTERM, .handler, .handler, .handler]
      [.signal .SIGQUIT, .handler] .SIGTERM).2.2.2 (by decide)⟩

/-! ## Two scrapes at once -/

theorem race_append (errA errB : GoError) (c : Collector) (xs ys : List Bool) :
    race errA errB c (xs ++ ys) = ys.foldl (raceStep errA errB) (race errA errB c xs) := by
  simp [race, List.foldl_append]

theorem race_alone (e : GoError) (list : List Float64) (c : Collector) :
    (race e e c [false, false, false]).collector = (CollectWith ⟨list, some e⟩ c).collector
    ∧ (race e e c [false, false, false]).logged = (CollectWith ⟨list, some e⟩ c).logged := by
  rw [collectWith_failure]
  by_cases h : isNewError c.last_error e = true
  · simp [race, raceStep, scrapeStep, h]
  · simp [race, raceStep, scrapeStep, h]

theorem race_after_first (e : GoError) (rest : List Bool) (st : Race)
    (hA : st.pcA = .done) (hB : st.pcB = .check ∨ st.pcB = .done)
    (hle : st.collector.last_error = some e) :
    (rest.foldl (raceStep e e) st).logged = st.logged := by
  induction rest generalizing st with
  | nil => rfl
  | cons b t ih =>
    obtain ⟨c, lg, pa, pb⟩ := st
    simp only at hA hB hle
    subst hA
    have hn : isNewError c.last_error e = false := by simp [hle, isNewError]
    rw [List.foldl_cons, ih]
    · cases b <;> rcases hB with rfl | rfl <;> simp [raceStep, scrapeStep, hn]
    · cases b <;> rcases hB with rfl | rfl <;> simp [raceStep, scrapeStep, hn]
    · cases b <;> rcases hB with rfl | rfl <;> simp [raceStep, scrapeStep, hn]
    · cases b <;> rcases hB with rfl | rfl <;> simp [raceStep, scrapeStep, hn, hle]

theorem scrapeStep_pending (e : GoError) (pc : ScrapePc) (c : Collector) (lg : List String)
    (h : pc ≠ .check) (hl : ∀ x ∈ lg, x = failedLine e) :
    (scrapeStep e pc c lg).1 ≠ .check
    ∧ (∀ x ∈ (scrapeStep e pc c lg).2.2, x = failedLine e)
    ∧ (scrapeStep e pc c lg).2.2.length + (if (scrapeStep e pc c lg).1 = .log then 1 else 0)
      = lg.length + (if pc = .log then 1 else 0) := by
  cases pc with
  | check => exact absurd rfl h
  | log =>
    refine ⟨by simp [scrapeStep], ?_, by simp [scrapeStep]⟩
    intro x hx
    simp only [scrapeStep, List.mem_append, List.mem_singleton] at hx
    rcases hx with hx | hx
    · exact hl x hx
    · exact hx
  | store => exact ⟨by simp [scrapeStep], hl, by simp [scrapeStep]⟩
  | done => exact ⟨by simp [scrapeStep], hl, by simp [scrapeStep]⟩

theorem race_pending (e : GoError) (sched : List Bool) (st : Race)
    (hA : st.pcA ≠ .check) (hB : st.pcB ≠ .check) (hl : ∀ x ∈ st.logged, x = failedLine e) :
    (sched.foldl (raceStep e e) st).pcA ≠ .check
    ∧ (sched.foldl (raceStep e e) st).pcB ≠ .check
    ∧ (∀ x ∈ (sched.foldl (raceStep e e) st).logged, x = failedLine e)
    ∧ (sched.foldl (raceStep e e) st).logged.length
        + (if (sched.foldl (raceStep e e) st).pcA = .log then 1 else 0)
        + (if (sched.foldl (raceStep e e) st).pcB = .log then 1 else 0)
      = st.logged.length + (if st.pcA = .log then 1 else 0)
        + (if st.pcB = .log then 1 else 0) := by
  induction sched generalizing st with
  | nil => exact ⟨hA, hB, hl, rfl⟩
  | cons b t ih =>
    obtain ⟨c, lg, pa, pb⟩ := st
    simp only at hA hB hl
    have hstep : (raceStep e e ⟨c, lg, pa, pb⟩ b).pcA ≠ .check
        ∧ (raceStep e e ⟨c, lg, pa, pb⟩ b).pcB ≠ .check
        ∧ (∀ x ∈ (raceStep e e ⟨c, lg, pa, pb⟩ b).logged, x = failedLine e)
        ∧ (raceStep e e ⟨c, lg, pa, pb⟩ b).logged.length
            + (if (raceStep e e ⟨c, lg, pa, pb⟩ b).pcA = .log then 1 else 0)
            + (if (raceStep e e ⟨c, lg, pa, pb⟩ b).pcB = .log then 1 else 0)
          = lg.length + (if pa = .log then 1 else 0) + (if pb = .log then 1 else 0) := by
      cases b with
      | false =>
        obtain ⟨s1, s2, s3⟩ := scrapeStep_pending e pa c lg hA hl
        refine ⟨by simpa [raceStep] using s1, by simpa [raceStep] using hB,
          by simpa [raceStep] using s2, ?_⟩
        simp only [raceStep, Bool.false_eq_true, if_false]
        omega
      | true =>
        obtain ⟨s1, s2, s3⟩ := scrapeStep_pending e pb c lg hB hl
        refine ⟨by simpa [raceStep] using hA, by simpa [raceStep] using s1,
          by simpa [raceStep] using s2, ?_⟩
        simp only [raceStep, if_true]
        omega
    obtain ⟨h1, h2, h3, h4⟩ := hstep
    obtain ⟨i1, i2, i3, i4⟩ := ih _ h1 h2 h3
    rw [List.foldl_cons]
    exact ⟨i1, i2, i3, by rw [i4, h4]⟩

theorem race_finish (e : GoError) (st : Race) (hA : st.pcA ≠ .check) (hB : st.pcB ≠ .check) :
    ([false, false, true, true].foldl (raceStep e e) st).pcA ≠ .log
    ∧ ([false, false, true, true].foldl (raceStep e e) st).pcB ≠ .log := by
  obtain ⟨c, lg, pa, pb⟩ := st
  simp only at hA hB
  cases pa with
  | check => exact absurd rfl hA
  | log => cases pb <;> simp_all [raceStep, scrapeStep]
  | store => cases pb <;> simp_all [raceStep, scrapeStep]
  | done => cases pb <;> simp_all [raceStep, scrapeStep]

/-- C9, as the claim states it, fails: two failing scrapes with the same new error
that both evaluate the condition of line 86 before either assigns `last_error`
both log it. -/
theorem race_logs_twice :
    (race (Errorf "error in getMetrics()") (Errorf "error in getMetrics()")
      (newCollector ⟨9100⟩) [false, true, false, false, true, true]).logged =
      ["Failed to get Metrics: error in getMetrics()",
        "Failed to get Metrics: error in getMetrics()"] := by
  decide

/-- C9, amended: `Collect` reads and writes `last_error` with no lock, one statement
at a time. A failing call that runs alone does what `Collect` does. When the
first of two failing scrapes with the same new error completes before the
second starts, the error is logged once; when both evaluate the condition of
line 86 before either goes on, both log it, whatever the interleaving of the
rest. -/
theorem race_unsynchronised (config : Config) (e : GoError) (list : List Float64)
    (c : Collector) (rest : List Bool) :
    ((race e e c [false, false, false]).collector = (CollectWith ⟨list, some e⟩ c).collector
      ∧ (race e e c [false, false, false]).logged = (CollectWith ⟨list, some e⟩ c).logged)
    ∧ (race e e (newCollector config) ([false, false, false] ++ rest)).logged = [failedLine e]
    ∧ (race e e (newCollector config)
        ([false, true] ++ rest ++ [false, false, true, true])).logged =
          [failedLine e, failedLine e] := by
  refine ⟨race_alone e list c, ?_, ?_⟩
  · rw [race_append, race_after_first e rest] <;>
      simp [race, raceStep, scrapeStep, newCollector_eq, isNewError]
  · rw [List.append_assoc, race_append]
    have h0 : race e e (newCollector config) [false, true] =
        ⟨newCollector config, [], .log, .log⟩ := by
      simp [race, raceStep, scrapeStep, newCollector_eq, isNewError]
    rw [h0, List.foldl_append]
    obtain ⟨h1, h2, h3, h4⟩ := race_pending e rest ⟨newCollector config, [], .log, .log⟩
      (by simp) (by simp) (by simp)
    obtain ⟨f1, f2⟩ := race_finish e _ h1 h2
    obtain ⟨-, -, g3, g4⟩ := race_pending e [false, false, true, true] _ h1 h2 h3
    rw [h4] at g4
    simp only [f1, f2, if_false, if_true, List.length_nil] at g4
    generalize List.foldl (raceStep e e)
      (List.foldl (raceStep e e) ⟨newCollector config, [], .log, .log⟩ rest)
      [false, false, true, true] = fin at g3 g4
    obtain ⟨c2, out, pa, pb⟩ := fin
    simp only at g3 g4 ⊢
    match out, g4, g3 with
    | [x, y], _, hall =>
      rw [hall x (by simp), hall y (by simp)]

end Exporter
